import Mathlib

/-!
Verification of the retrieval/citation pipeline of the DocumentAssistant
repository.  Pure Lean embeddings of the functions in `citation_handler.py`,
`vector_store.py`, `utils.py` and the chat gating logic of
`chat_interface.py`, followed by theorems settling the specification claims.
-/

namespace DocAssist

/-! ## Tag encoding and decoding

`vector_store.py` line 45 encodes a tag list with Python `",".join(tags_list)`;
`citation_handler.py` lines 95-98 decode with `tags_str.split(",")`, mapping a
falsy (empty) string to the empty list.  Python strings are modelled as Lean
`String`; the single-character join/split are modelled on the underlying
character list. -/

/-- Embedding of `",".join(tags_list)` (vector_store.py line 45). -/
def join_tags (tags : List String) : String :=
  ⟨List.intercalate [','] (tags.map String.data)⟩

/-- Embedding of the decoding in `citation_handler.py` lines 94-98:
`tags = tags_str.split(",") if tags_str else []`. -/
def parse_tags (tagsStr : String) : List String :=
  if tagsStr = "" then [] else (tagsStr.data.splitOn ',').map String.mk

/-! ## Citation tracker (`citation_handler.py`)

`CitationTrackingHandler.on_retriever_end` walks the retrieved records and
builds `self.citations`, deduplicating via the `self.citation_sources` set of
string keys.  A retrieved record is a LangChain `Document` (an object with
`page_content` and `metadata`), a plain dict, a bare string, or anything else;
a record whose processing raises an exception is modelled by the `raising`
constructor (the handler catches the exception, lines 193-217). -/

/-- The metadata mapping of a retrieved record, restricted to the keys the
handler reads.  `none` models an absent key (Python `metadata.get` default). -/
structure Metadata where
  doc_id : Option String := none
  source : Option String := none
  page : Option Nat := none
  chunk : Option Nat := none
  doc_type : Option String := none
  case_id : Option String := none
  tags_str : Option String := none
deriving DecidableEq

/-- A citation record as appended to `self.citations`. -/
structure Citation where
  text : String
  source : String
  doc_id : String
  doc_type : String
  case_id : String
  tags : List String
  page : Nat
  chunk : Nat
deriving DecidableEq

/-- A retrieved record, in the shapes distinguished by `on_retriever_end`.
`raising msg` models a record whose processing raises an exception with
message `msg` (caught at lines 193-217). -/
inductive RetrievedDoc
  | structured (page_content : String) (metadata : Metadata)
  | dictRec (page_content : Option String) (metadata : Metadata)
  | bare (s : String)
  | other (srepr : String)
  | raising (msg : String)
deriving DecidableEq

/-- The dedup key `f"{doc_id}_{page}_{chunk}_{source}"` of lines 79-83,
with the defaults of `metadata.get` applied. -/
def citation_key (md : Metadata) : String :=
  md.doc_id.getD "Unknown" ++ "_" ++ toString (md.page.getD 0) ++ "_" ++
    toString (md.chunk.getD 0) ++ "_" ++ md.source.getD "Unknown"

/-- The composite key `(doc_id, page, chunk, source)` named by the spec
(after the handler defaults), as a tuple rather than a joined string. -/
def compositeKey (md : Metadata) : String × Nat × Nat × String :=
  (md.doc_id.getD "Unknown", md.page.getD 0, md.chunk.getD 0,
    md.source.getD "Unknown")

/-- The citation appended for a structured record (lines 100-109). -/
def mkStructCitation (content : String) (md : Metadata) : Citation :=
  { text := content
    source := md.source.getD "Unknown"
    doc_id := md.doc_id.getD "Unknown"
    doc_type := md.doc_type.getD "Unknown"
    case_id := md.case_id.getD "Unknown"
    tags := parse_tags (md.tags_str.getD "")
    page := md.page.getD 0
    chunk := md.chunk.getD 0 }

/-- The citation appended for a bare string or unknown record
(lines 161-170 and 183-192); `text` is the string itself (resp. `str(doc)`). -/
def bareCitation (s : String) : Citation :=
  { text := s, source := "Unknown", doc_id := "Unknown", doc_type := "Unknown"
    case_id := "Unknown", tags := [], page := 0, chunk := 0 }

/-- The synthetic citation appended when processing a record raises an
exception with message `msg` (lines 208-217). -/
def errorCitation (msg : String) : Citation :=
  { text := "[Error processing document: " ++ msg ++ "]"
    source := "Error", doc_id := "Error", doc_type := "Error"
    case_id := "Error", tags := [], page := 0, chunk := 0 }

/-- The dedup key used in the exception branch (line 199). -/
def errKey (msg : String) : String := "error_" ++ msg

/-- Handler state: `self.citations` and the `self.citation_sources` set
(modelled as a list; only membership is used). -/
structure HState where
  citations : List Citation
  seen : List String

/-- Processing of one retrieved record by the loop body of
`on_retriever_end` (lines 66-217). -/
def procDoc (s : HState) (d : RetrievedDoc) : HState :=
  match d with
  | .structured content md =>
      let key := citation_key md
      if key ∈ s.seen then s
      else { citations := s.citations ++ [mkStructCitation content md]
             seen := key :: s.seen }
  | .dictRec content md =>
      let key := citation_key md
      if key ∈ s.seen then s
      else { citations := s.citations ++ [mkStructCitation (content.getD "") md]
             seen := key :: s.seen }
  | .bare str =>
      -- Python `hash(doc)` is modelled by `String.hash`: equal strings hash
      -- equally, distinct strings may collide, as in the source.
      let key := "string_" ++ toString str.hash
      if key ∈ s.seen then s
      else { citations := s.citations ++ [bareCitation str]
             seen := key :: s.seen }
  | .other srepr =>
      let key := "unknown_" ++ toString srepr.hash
      if key ∈ s.seen then s
      else { citations := s.citations ++ [bareCitation srepr]
             seen := key :: s.seen }
  | .raising msg =>
      let key := errKey msg
      if key ∈ s.seen then s
      else { citations := s.citations ++ [errorCitation msg]
             seen := key :: s.seen }

/-- Folding the loop body over a batch of records from a given state. -/
def procDocs (s : HState) (docs : List RetrievedDoc) : HState :=
  docs.foldl procDoc s

/-- Embedding of `CitationTrackingHandler.on_retriever_end`: the handler
resets `citations` and `citation_sources` (lines 55-56) and processes the
batch; the value is the resulting `self.citations`. -/
def on_retriever_end (docs : List RetrievedDoc) : List Citation :=
  (procDocs ⟨[], []⟩ docs).citations

/-- First-occurrence deduplication of `(page_content, metadata)` records by
their string citation key, starting from an already-seen key list: the
reference behaviour the handler implements for structured records. -/
def dedupByKeyFrom (seen : List String) :
    List (String × Metadata) → List (String × Metadata)
  | [] => []
  | p :: l =>
      if citation_key p.2 ∈ seen then dedupByKeyFrom seen l
      else p :: dedupByKeyFrom (citation_key p.2 :: seen) l

/-! ## Vector store (`vector_store.py`)

`initialize_vectorstore` chunks the pages of each ingested document with a
`RecursiveCharacterTextSplitter(chunk_size=1000, chunk_overlap=100)`, attaches
flat metadata to each chunk, and builds either a Chroma store or the custom
`PineconeVectorStore`.  Every exception inside the store-creation `try` block
is caught and turned into a `None` return (lines 130-145). -/

/-- An ingested document as consumed by `initialize_vectorstore`: the dict
`{id, title, type, case_id, tags, pages}`.  A page is modelled by its
extracted text content (lines 48-62 normalise the page shapes — Document
object, string, dict, other — to a string). -/
structure SrcDoc where
  id : String
  title : String
  dtype : String
  case_id : String
  tags : List String
  pages : List String
deriving DecidableEq

/-- Modelled from the spec: the chunker of §4.1 — the
`RecursiveCharacterTextSplitter` used at vector_store.py lines 27-30 is
library code absent from the repository.  Fixed target chunk size and
overlap measured in characters; the fall-back hard cut at the window size
(the spec's natural-boundary preference does not apply to text without
boundaries).  `fuel` bounds the recursion by the text length; `step` is
`size - overlap`.  Empty text yields zero chunks (a no-op, not an error). -/
def chunkAux (size step : Nat) : Nat → List Char → List (List Char)
  | 0, cs => if cs.length = 0 then [] else [cs]
  | fuel + 1, cs =>
      if cs.length = 0 then []
      else if cs.length ≤ size then [cs]
      else cs.take size :: chunkAux size step fuel (cs.drop step)

/-- Modelled from the spec: `split_text` with chunk size `size` and overlap
`overlap` (§4.1); consecutive chunks overlap by `overlap` characters. -/
def split_text (size overlap : Nat) (s : String) : List String :=
  (chunkAux size (size - overlap) s.data.length s.data).map String.mk

/-- The flat metadata record attached to every chunk
(vector_store.py lines 69-79).  The `text` key duplicates the chunk text for
the Pinecone backend; `none` models an absent key. -/
structure PMeta where
  source : String
  doc_id : String
  doc_type : String
  case_id : String
  tags_str : String
  page : Nat
  chunk : Nat
  text : Option String
deriving DecidableEq

/-- A LangChain `Document`: page content plus flat metadata
(vector_store.py lines 82-85). -/
structure LCDoc where
  page_content : String
  metadata : PMeta
deriving DecidableEq

/-- The `langchain_docs` list built by `initialize_vectorstore`
(lines 32-92): for each document, for each page `i`, for each chunk `j` of
the page split with size 1000 / overlap 100, one `LCDoc` carrying the
provenance metadata and the chunk text duplicated under the `text` key. -/
def build_langchain_docs (docs : List SrcDoc) : List LCDoc :=
  docs.flatMap fun d =>
    d.pages.enum.flatMap fun pi =>
      ((split_text 1000 100 pi.2).enum.map fun pj =>
        { page_content := pj.2
          metadata :=
            { source := d.title
              doc_id := d.id
              doc_type := d.dtype
              case_id := d.case_id
              tags_str := join_tags d.tags
              page := pi.1
              chunk := pj.1
              text := some pj.2 } })

/-- The Python exceptions arising in the embedded code paths.
`configurationError` embeds the distinct `ConfigurationError` type named by
the spec taxonomy (§7); the source never raises it. -/
inductive PyErr
  | valueError (msg : String)
  | attributeError (msg : String)
  | configurationError (msg : String)
deriving DecidableEq

/-- Whether an `Except` result failed with the spec's distinct
`ConfigurationError` type. -/
def isConfigErr {α : Type} : Except PyErr α → Bool
  | .error (.configurationError _) => true
  | _ => false

/-- The ambient configuration read by the store constructors: the
`PINECONE_API_KEY` environment variable and the names of the existing remote
indexes (`pc.list_indexes().names()`). -/
structure Env where
  pineconeApiKey : Option String
  existingIndexes : List String
deriving DecidableEq

/-- Python falsiness of an optional string (`not x` for `x` absent or
empty). -/
def pyFalsy (o : Option String) : Bool := o.getD "" == ""

/-- The remote Pinecone index state after upload: the stored records carry
the chunk metadata (vector_store.py lines 204-244 upsert
`{id, values, metadata}` with `metadata = doc.metadata`; vectors and ids are
opaque to the claims). -/
structure PineconeStore where
  indexName : String
  records : List PMeta
deriving DecidableEq

/-- Embedding of `PineconeVectorStore.__init__` (lines 154-202): raises
`ValueError` when the API key is missing/empty, then when the index name is
missing/empty, then when the index does not exist; otherwise uploads the
documents and returns the store. -/
def pineconeInit (lcDocs : List LCDoc) (env : Env)
    (pineconeIndex : Option String) : Except PyErr PineconeStore :=
  if pyFalsy env.pineconeApiKey then
    .error (.valueError "Pinecone API key not found")
  else if pyFalsy pineconeIndex then
    .error (.valueError "Pinecone index name not provided")
  else if (pineconeIndex.getD "") ∉ env.existingIndexes then
    .error (.valueError ("Pinecone index " ++ pineconeIndex.getD ""
      ++ " not found"))
  else
    .ok { indexName := pineconeIndex.getD ""
          records := lcDocs.map fun d => d.metadata }

/-- A vector store as returned by `initialize_vectorstore`: the Chroma store
holds the chunk documents in memory; the Pinecone store wraps the remote
index. -/
inductive VStore
  | chroma (docs : List LCDoc)
  | pinecone (ps : PineconeStore)
deriving DecidableEq

/-- Embedding of `initialize_vectorstore` (named `initialize_vectorstore` in
the source): empty input and empty chunk output return `None` with a warning
(lines 22-25, 94-96); store-creation exceptions are caught and also yield
`None` (lines 130-145), so the function never raises. -/
def initVectorstore (documents : List SrcDoc) (vsType : String)
    (pineconeIndex : Option String) (env : Env) : Option VStore :=
  if documents = [] then none
  else
    let lc := build_langchain_docs documents
    if lc = [] then none
    else if vsType = "pinecone" then
      match pineconeInit lc env pineconeIndex with
      | .error _ => none
      | .ok ps => some (.pinecone ps)
    else some (.chroma lc)

/-- Modelled from the spec: top-k similarity search of the in-memory Chroma
backend (§4.3), which is library code absent from the repository.  The
cosine ordering induced by the black-box embedding provider is modelled by
the `rank` reordering parameter; the store returns up to `k` most-similar
records. -/
def chromaSimilaritySearch (rank : List LCDoc → List LCDoc)
    (store : List LCDoc) (q : String) (k : Nat) : List LCDoc :=
  (rank store).take k

/-- Embedding of `PineconeVectorStore.similarity_search` (lines 253-282):
the remote query (modelled from the spec via the `rank` reordering, as the
remote nearest-neighbour search is a network service) returns up to `k`
matches with metadata; each match is converted to a `Document` whose
`page_content` is the metadata `text` value (empty string when absent) and
whose metadata has the `text` key removed. -/
def similarity_search (ps : PineconeStore) (rank : List PMeta → List PMeta)
    (q : String) (k : Nat) : List LCDoc :=
  ((rank ps.records).take k).map fun m =>
    { page_content := m.text.getD ""
      metadata := { m with text := none } }

/-- A retrieval attempt against the session vector-store state, as performed
by `process_chat_input` (`chat_interface.py` lines 147-172 call
`vectorstore.as_retriever(...)` and then `retriever.invoke`): on the `None`
state this is a Python `AttributeError`; on a real store it is the backend
similarity search. -/
def retrieveAttempt (vs : Option VStore) (rankC : List LCDoc → List LCDoc)
    (rankP : List PMeta → List PMeta) (q : String) (k : Nat) :
    Except PyErr (List LCDoc) :=
  match vs with
  | none => .error (.attributeError
      "NoneType object has no attribute as_retriever")
  | some (.chroma ds) => .ok (chromaSimilaritySearch rankC ds q k)
  | some (.pinecone ps) => .ok (similarity_search ps rankP q k)

/-- Embedding of the chat gating in `build_chat_messages_panel`
(`chat_interface.py` lines 85-94): `chat_disabled = not openai_api_key or
st.session_state.vectorstore is None`; the Send button is disabled and no
retrieval can be triggered while this holds. -/
def chat_disabled (openaiApiKey : Option String) (vs : Option VStore) : Bool :=
  pyFalsy openaiApiKey || vs.isNone

/-! ## Tag management (`utils.py`) -/

/-- First-occurrence deduplication of a string list, given already-seen
elements. -/
def dedupStr (seen : List String) : List String → List String
  | [] => []
  | t :: ts => if t ∈ seen then dedupStr seen ts else t :: dedupStr (t :: seen) ts

/-- Models `list(set(current_tags) | set(new_tags))` of
`add_tags_to_document` (utils.py lines 51-53).  Python materialises the set
in an unspecified iteration order; the model fixes first-occurrence order,
which is adequate for the claims (none depends on the order of a document's
tag list). -/
def pySetUnion (old new : List String) : List String :=
  dedupStr [] (old ++ new)

/-- Embedding of `add_tags_to_document` (utils.py lines 36-61): update the
first document whose `id` matches, add every new tag to the global tag set,
and return success; return `False` leaving everything unchanged when no
document matches. -/
def add_tags_to_document (docId : String) (newTags : List String) :
    List SrcDoc → Finset String → Bool × List SrcDoc × Finset String
  | [], g => (false, [], g)
  | d :: ds, g =>
      if d.id = docId then
        (true, { d with tags := pySetUnion d.tags newTags } :: ds,
          newTags.foldl (fun s t => insert t s) g)
      else
        let r := add_tags_to_document docId newTags ds g
        (r.1, d :: r.2.1, r.2.2)

/-- The loop of `remove_tag_from_document` (utils.py lines 76-92) with the
already-visited prefix carried in `acc` (reversed): the loop acts on the
first document matching `docId` that carries the tag, removes the first
occurrence of the tag from its list (`list.remove`), re-checks tag usage
over the whole updated document list, discards the tag from the global set
when unused, and returns `True`; otherwise it continues, returning `False`
with everything unchanged after the last document. -/
def removeTagAux (docId tag : String) (acc : List SrcDoc) :
    List SrcDoc → Finset String → Bool × List SrcDoc × Finset String
  | [], g => (false, acc.reverse, g)
  | d :: ds, g =>
      if d.id = docId ∧ tag ∈ d.tags then
        let d2 := { d with tags := d.tags.erase tag }
        let docs2 := acc.reverse ++ d2 :: ds
        let stillUsed := docs2.any fun x => decide (tag ∈ x.tags)
        (true, docs2, if stillUsed then g else g.erase tag)
      else removeTagAux docId tag (d :: acc) ds g

/-- Embedding of `remove_tag_from_document` (utils.py lines 63-92). -/
def remove_tag_from_document (docId tag : String) (documents : List SrcDoc)
    (globalTags : Finset String) : Bool × List SrcDoc × Finset String :=
  removeTagAux docId tag [] documents globalTags

end DocAssist

namespace DocAssist

/-! ## Helper lemmas for the citation tracker -/

/-- Helper: the citations produced by folding the handler over a batch of
structured records, from an arbitrary starting state, are the starting
citations followed by the first-occurrence key-deduplicated projections. -/
theorem procDocs_structured_citations (batch : List (String × Metadata)) :
    ∀ (cs : List Citation) (seen : List String),
      (procDocs ⟨cs, seen⟩ (batch.map fun p => .structured p.1 p.2)).citations
        = cs ++ (dedupByKeyFrom seen batch).map fun p =>
            mkStructCitation p.1 p.2 := by
  induction batch with
  | nil => intro cs seen; simp [procDocs, dedupByKeyFrom]
  | cons p l ih =>
      intro cs seen
      by_cases h : citation_key p.2 ∈ seen
      · simp only [List.map_cons, procDocs, List.foldl_cons, procDoc, h,
          if_pos, dedupByKeyFrom]
        exact ih cs seen
      · simp only [List.map_cons, procDocs, List.foldl_cons, procDoc, h,
          if_neg, not_false_iff, dedupByKeyFrom]
        rw [show (List.foldl procDoc
            { citations := cs ++ [mkStructCitation p.1 p.2],
              seen := citation_key p.2 :: seen }
            (l.map fun p => .structured p.1 p.2))
          = procDocs ⟨cs ++ [mkStructCitation p.1 p.2],
              citation_key p.2 :: seen⟩
              (l.map fun p => .structured p.1 p.2) from rfl]
        rw [ih (cs ++ [mkStructCitation p.1 p.2]) (citation_key p.2 :: seen)]
        simp

end DocAssist

namespace DocAssist

/-- Claim C1 counterexample: two structured records with distinct composite
keys `(doc_id, page, chunk, source)` — `("A_0", 0, 0, "B")` versus
`("A", 0, 0, "0_B")` — are joined to the same string key `"A_0_0_0_B"` by the
handler, so the batch yields only one citation, not one per distinct
composite key. -/
theorem c1_dedup_key_counterexample :
    compositeKey { doc_id := some "A_0", source := some "B" }
        ≠ compositeKey { doc_id := some "A", source := some "0_B" }
      ∧ on_retriever_end
          [.structured "t" { doc_id := some "A_0", source := some "B" },
           .structured "u" { doc_id := some "A", source := some "0_B" }]
        = [mkStructCitation "t" { doc_id := some "A_0", source := some "B" }] := by
  constructor
  · decide
  · decide

/-- Claim C1 (amended): for every batch of structured retrieved records, the
resulting citations list contains exactly one citation for each distinct
string key `f"{doc_id}_{page}_{chunk}_{source}"` appearing in the batch,
namely the projection of the first record bearing that key, in
first-occurrence retrieval order; and two records with identical text but
different string keys (in particular, different `doc_id` with no underscore
collision) yield two distinct citations. -/
theorem c1_dedup_by_string_key :
    (∀ (batch : List (String × Metadata)),
        on_retriever_end (batch.map fun p => .structured p.1 p.2)
          = (dedupByKeyFrom [] batch).map fun p => mkStructCitation p.1 p.2)
    ∧ ∀ (t : String) (md1 md2 : Metadata),
        citation_key md1 ≠ citation_key md2 →
        on_retriever_end [.structured t md1, .structured t md2]
          = [mkStructCitation t md1, mkStructCitation t md2] := by
  constructor
  · intro batch
    simpa using procDocs_structured_citations batch [] []
  · intro t md1 md2 h
    simp [on_retriever_end, procDocs, procDoc, h, Ne.symm h]

/-- Claim C1 witness: two records with identical text `"t"` but different
`doc_id` (and hence different string keys) yield two distinct citations. -/
theorem c1_dedup_by_string_key_witness :
    on_retriever_end
        [.structured "t" { doc_id := some "X" },
         .structured "t" { doc_id := some "Y" }]
      = [mkStructCitation "t" { doc_id := some "X" },
         mkStructCitation "t" { doc_id := some "Y" }] :=
  c1_dedup_by_string_key.2 "t" { doc_id := some "X" } { doc_id := some "Y" }
    (by decide)

/-- Claim C9: two structured records lacking all of `doc_id`, `page`, `chunk`
and `source` both receive the key `"Unknown_0_0_Unknown"`, so only one
citation (projecting the first record) is emitted even when the texts
differ. -/
theorem c9_default_key_collapse :
    citation_key {} = "Unknown_0_0_Unknown"
    ∧ ∀ (t1 t2 : String), t1 ≠ t2 →
        on_retriever_end [.structured t1 {}, .structured t2 {}]
          = [mkStructCitation t1 {}] := by
  refine ⟨by decide, fun t1 t2 _ => ?_⟩
  simp [on_retriever_end, procDocs, procDoc, citation_key]

/-- Claim C9 witness: instantiation at the differing texts `"a"` and `"b"`. -/
theorem c9_default_key_collapse_witness :
    on_retriever_end [.structured "a" {}, .structured "b" {}]
      = [mkStructCitation "a" {}] :=
  c9_default_key_collapse.2 "a" "b" (by decide)

/-- Claim C7 counterexample: two records that both raise an exception with
the same message `"boom"` produce a single error citation, not one per
failing record — the handler deduplicates error citations by message
(key `"error_" + message`). -/
theorem c7_duplicate_error_counterexample :
    on_retriever_end [.raising "boom", .raising "boom"]
      = [errorCitation "boom"] := by
  decide

/-- Claim C7 (amended): a record whose processing raises an exception is
caught — the remaining records of the batch are still processed from the
updated state, so the batch is never aborted — and one synthetic citation
with source `"Error"` is appended for that record unless an exception with
an identical message was already recorded in this batch, in which case
nothing is appended. -/
theorem c7_error_citation_best_effort :
    ∀ (pre post : List RetrievedDoc) (msg : String),
      ((errKey msg ∉ (procDocs ⟨[], []⟩ pre).seen →
          on_retriever_end (pre ++ .raising msg :: post)
            = (procDocs
                ⟨(procDocs ⟨[], []⟩ pre).citations ++ [errorCitation msg],
                  errKey msg :: (procDocs ⟨[], []⟩ pre).seen⟩ post).citations)
        ∧ (errKey msg ∈ (procDocs ⟨[], []⟩ pre).seen →
            on_retriever_end (pre ++ .raising msg :: post)
              = (procDocs (procDocs ⟨[], []⟩ pre) post).citations))
      ∧ (errorCitation msg).source = "Error" := by
  intro pre post msg
  refine ⟨⟨fun h => ?_, fun h => ?_⟩, rfl⟩
  · simp only [procDocs] at h
    simp only [on_retriever_end, procDocs, List.foldl_append, List.foldl_cons,
      procDoc]
    rw [if_neg h]
  · simp only [procDocs] at h
    simp only [on_retriever_end, procDocs, List.foldl_append, List.foldl_cons,
      procDoc]
    rw [if_pos h]

/-- Claim C7 witness: a singleton batch with a failing record yields exactly
the synthetic error citation, whose source is `"Error"`. -/
theorem c7_error_citation_best_effort_witness :
    on_retriever_end [RetrievedDoc.raising "boom"] = [errorCitation "boom"]
      ∧ (errorCitation "boom").source = "Error" := by
  refine ⟨?_, (c7_error_citation_best_effort [] [] "boom").2⟩
  have h := ((c7_error_citation_best_effort [] [] "boom").1).1 (by decide)
  simpa using h

end DocAssist

namespace DocAssist

/-- Claim C2 counterexample: the singleton list containing the empty tag has
no commas in its tags, yet it joins to the empty string, which the decoder
maps to the empty list — the round trip fails on `[""]`. -/
theorem c2_roundtrip_counterexample :
    ((',' : Char) ∉ "".data)
      ∧ parse_tags (join_tags [""]) = []
      ∧ parse_tags (join_tags [""]) ≠ [""] := by
  refine ⟨by decide, rfl, by decide⟩

/-- Claim C2 (amended): for every tag list whose individual tags contain no
commas and which is not the singleton list containing the empty string,
joining with `","` and then splitting on `","` (with the empty string mapped
to the empty list) returns the original tag list. -/
theorem c2_tag_roundtrip :
    ∀ (tags : List String),
      (∀ t ∈ tags, (',' : Char) ∉ t.data) → tags ≠ [""] →
      parse_tags (join_tags tags) = tags := by
  intro ts hcomma hne
  rcases ts with _ | ⟨a, rest⟩
  · rfl
  · have hx : ∀ l ∈ (a :: rest).map String.data, (',' : Char) ∉ l := by
      intro l hl
      obtain ⟨t, ht, rfl⟩ := List.mem_map.1 hl
      exact hcomma t ht
    have hsplit :
        (List.intercalate [','] ((a :: rest).map String.data)).splitOn ','
          = (a :: rest).map String.data :=
      List.splitOn_intercalate ((a :: rest).map String.data) ',' hx (by simp)
    have hL : List.intercalate [','] ((a :: rest).map String.data) ≠ [] := by
      intro h0
      rw [h0] at hsplit
      have hnil : ([] : List Char).splitOn ',' = [[]] := rfl
      rw [hnil] at hsplit
      have : a.data = [] ∧ rest = [] := by
        cases rest with
        | nil => simpa using hsplit.symm
        | cons b r => simp at hsplit
      have ha : a = "" := by
        cases a
        simp_all
      exact hne (by simp [ha, this.2])
    have hmk : (join_tags (a :: rest)) ≠ "" := by
      simp only [join_tags]
      intro h
      apply hL
      have := congrArg String.data h
      simpa using this
    simp only [parse_tags]
    rw [if_neg hmk]
    have hdata : (join_tags (a :: rest)).data
        = List.intercalate [','] ((a :: rest).map String.data) := rfl
    rw [hdata, hsplit, List.map_map]
    have hid : (String.mk ∘ String.data) = id := funext fun s => rfl
    rw [hid, List.map_id]

/-- Claim C2 witness: the round trip at the comma-free tag list
`["a", "b"]`. -/
theorem c2_tag_roundtrip_witness :
    parse_tags (join_tags ["a", "b"]) = ["a", "b"] :=
  c2_tag_roundtrip ["a", "b"] (by decide) (by decide)

/-- Claim C3 counterexample: constructing the Pinecone store with the API
key environment variable absent fails with the generic `ValueError`, not
with a distinct `ConfigurationError` type — no such type exists in the
code. -/
theorem c3_valueerror_counterexample :
    pineconeInit [] ⟨none, []⟩ (some "idx")
        = .error (.valueError "Pinecone API key not found")
      ∧ isConfigErr (pineconeInit [] ⟨none, []⟩ (some "idx")) = false := by
  refine ⟨rfl, rfl⟩

/-- Claim C3 (amended): for every construction of the cloud-backed vector
store, if the Pinecone API key environment variable is absent or empty the
constructor raises `ValueError "Pinecone API key not found"`, and if the key
is present but the index name argument is missing or empty it raises
`ValueError "Pinecone index name not provided"` — a generic `ValueError`
with a descriptive message, not a distinct configuration-error type, and in
neither case is a store silently returned. -/
theorem c3_missing_config_fails :
    ∀ (lcDocs : List LCDoc) (env : Env) (idx : Option String),
      (pyFalsy env.pineconeApiKey = true →
        pineconeInit lcDocs env idx
          = .error (.valueError "Pinecone API key not found"))
      ∧ (pyFalsy env.pineconeApiKey = false → pyFalsy idx = true →
          pineconeInit lcDocs env idx
            = .error (.valueError "Pinecone index name not provided")) := by
  intro lcDocs env idx
  constructor
  · intro h
    simp [pineconeInit, h]
  · intro h1 h2
    simp [pineconeInit, h1, h2]

/-- Claim C3 witness: missing API key with an index name provided, and a
present API key with the index name argument missing. -/
theorem c3_missing_config_fails_witness :
    pineconeInit [] ⟨none, ["idx"]⟩ (some "idx")
        = .error (.valueError "Pinecone API key not found")
      ∧ pineconeInit [] ⟨some "k", ["idx"]⟩ none
        = .error (.valueError "Pinecone index name not provided") :=
  ⟨(c3_missing_config_fails [] ⟨none, ["idx"]⟩ (some "idx")).1 (by decide),
   (c3_missing_config_fails [] ⟨some "k", ["idx"]⟩ none).2 (by decide)
     (by decide)⟩

/-- Claim C5 counterexample: with zero documents `initialize_vectorstore`
returns `None`; a retrieval attempt against this `None` state is a Python
`AttributeError` (calling `as_retriever` on `None`), not an empty result
sequence. -/
theorem c5_retrieval_counterexample :
    initVectorstore [] "chroma" none ⟨none, []⟩ = none
      ∧ retrieveAttempt (initVectorstore [] "chroma" none ⟨none, []⟩)
            id id "q" 5
          = .error (.attributeError
              "NoneType object has no attribute as_retriever")
      ∧ retrieveAttempt (initVectorstore [] "chroma" none ⟨none, []⟩)
            id id "q" 5
          ≠ .ok [] := by
  refine ⟨rfl, rfl, fun h => Except.noConfusion h⟩

/-- Claim C5 (amended): when the document set passed to index construction
is empty, no index is built and no error is raised — `initialize_vectorstore`
returns the `None` "no documents" state — and the chat interface disables
retrieval whenever the store is `None`, so no retrieval is attempted against
this state; a direct retrieval attempt on the `None` state would fail with
an attribute error rather than return an empty sequence. -/
theorem c5_empty_documents_state :
    ∀ (vsType : String) (pidx : Option String) (env : Env)
      (openaiKey : Option String) (rankC : List LCDoc → List LCDoc)
      (rankP : List PMeta → List PMeta) (q : String) (k : Nat),
      initVectorstore [] vsType pidx env = none
      ∧ chat_disabled openaiKey none = true
      ∧ retrieveAttempt none rankC rankP q k
          = .error (.attributeError
              "NoneType object has no attribute as_retriever") := by
  intro vsType pidx env openaiKey rankC rankP q k
  refine ⟨rfl, ?_, rfl⟩
  simp [chat_disabled]

end DocAssist

namespace DocAssist

/-! ## Helper lemmas for the chunker and the tag managers -/

/-- Helper: on 1500 characters, the size-1000 / step-900 chunker produces
the first 1000 characters and the 600 characters from position 900. -/
theorem chunkAux_1500 (cs : List Char) (h : cs.length = 1500) :
    chunkAux 1000 900 1500 cs = [cs.take 1000, cs.drop 900] := by
  rw [show (1500 : Nat) = 1499 + 1 from rfl]
  rw [chunkAux]
  rw [if_neg (by omega), if_neg (by omega)]
  have hdrop : (cs.drop 900).length = 600 := by simp [h]
  rw [show (1499 : Nat) = 1498 + 1 from rfl]
  rw [chunkAux]
  rw [if_neg (by omega), if_pos (by omega)]

/-- Helper: splitting a 1500-character text with chunk size 1000 and overlap
100 yields exactly 2 chunks. -/
theorem split_text_1500 (s : String) (h : s.length = 1500) :
    (split_text 1000 100 s).length = 2 := by
  obtain ⟨cs⟩ := s
  have hcs : cs.length = 1500 := h
  simp only [split_text]
  rw [show (1000 - 100 : Nat) = 900 from by norm_num, hcs,
    chunkAux_1500 cs hcs]
  rfl

/-- Helper: when no document in the remaining list both matches the id and
carries the tag, the removal loop returns `False` with the document list
(visited prefix restored) and the global tag set unchanged. -/
theorem removeTagAux_no_match (did tag : String) :
    ∀ (docs : List SrcDoc) (acc : List SrcDoc) (g : Finset String),
      (∀ e ∈ docs, ¬ (e.id = did ∧ tag ∈ e.tags)) →
      removeTagAux did tag acc docs g = (false, acc.reverse ++ docs, g) := by
  intro docs
  induction docs with
  | nil => intro acc g _; simp [removeTagAux]
  | cons d ds ih =>
      intro acc g hnone
      rw [removeTagAux, if_neg (hnone d (List.mem_cons_self d ds))]
      rw [ih (d :: acc) g fun e he => hnone e (List.mem_cons_of_mem d he)]
      simp

/-- Helper: the removal loop skips over a prefix in which no document both
matches the id and carries the tag, accumulating it into the visited list. -/
theorem removeTagAux_skip_prefix (did tag : String) :
    ∀ (pre rest acc : List SrcDoc) (g : Finset String),
      (∀ e ∈ pre, ¬ (e.id = did ∧ tag ∈ e.tags)) →
      removeTagAux did tag acc (pre ++ rest) g
        = removeTagAux did tag (pre.reverse ++ acc) rest g := by
  intro pre
  induction pre with
  | nil => intro rest acc g _; simp
  | cons d ds ih =>
      intro rest acc g hnone
      rw [List.cons_append, removeTagAux,
        if_neg (hnone d (List.mem_cons_self d ds))]
      rw [ih rest (d :: acc) g fun e he => hnone e (List.mem_cons_of_mem d he)]
      simp

/-- Helper: when no document matches the id, `add_tags_to_document` returns
`False` leaving documents and global tags unchanged. -/
theorem add_tags_no_match (did : String) (newTags : List String) :
    ∀ (docs : List SrcDoc) (g : Finset String),
      (∀ e ∈ docs, e.id ≠ did) →
      add_tags_to_document did newTags docs g = (false, docs, g) := by
  intro docs
  induction docs with
  | nil => intro g _; rfl
  | cons d ds ih =>
      intro g hnone
      rw [add_tags_to_document, if_neg (hnone d (List.mem_cons_self d ds))]
      rw [ih g fun e he => hnone e (List.mem_cons_of_mem d he)]

/-- Claim C4: ingesting one document whose single page holds 1500 characters
(chunk size 1000, overlap 100) produces exactly 2 chunks — both as the raw
split and as the chunk documents fed to the index — the in-memory store
holds exactly those chunk documents, and any query against the resulting
index (the similarity ordering of the black-box embedding modelled by a
length-preserving reordering) returns at most 2 results for every `k`. -/
theorem c4_single_1500_char_document :
    ∀ (text : String), text.length = 1500 →
    ∀ (i t ty ci : String) (tags : List String),
      (split_text 1000 100 text).length = 2
      ∧ (build_langchain_docs [⟨i, t, ty, ci, tags, [text]⟩]).length = 2
      ∧ (∀ (pidx : Option String) (env : Env),
          initVectorstore [⟨i, t, ty, ci, tags, [text]⟩] "chroma" pidx env
            = some (.chroma
                (build_langchain_docs [⟨i, t, ty, ci, tags, [text]⟩])))
      ∧ ∀ (rank : List LCDoc → List LCDoc) (q : String) (k : Nat),
          (rank (build_langchain_docs [⟨i, t, ty, ci, tags, [text]⟩])).length
            = (build_langchain_docs [⟨i, t, ty, ci, tags, [text]⟩]).length →
          (chromaSimilaritySearch rank
              (build_langchain_docs [⟨i, t, ty, ci, tags, [text]⟩]) q k).length
            ≤ 2 := by
  intro text h i t ty ci tags
  have hs : (split_text 1000 100 text).length = 2 := split_text_1500 text h
  have hb : (build_langchain_docs [⟨i, t, ty, ci, tags, [text]⟩]).length = 2 := by
    simp only [build_langchain_docs, List.flatMap, List.enum, List.enumFrom,
      List.map, List.length_append, List.length_map]
    simp [hs, List.enum]
  refine ⟨hs, hb, ?_, ?_⟩
  · intro pidx env
    have hne : build_langchain_docs [⟨i, t, ty, ci, tags, [text]⟩] ≠ [] := by
      intro h0
      rw [h0] at hb
      simp at hb
    simp [initVectorstore, hne]
  · intro rank q k hlen
    have hle : (chromaSimilaritySearch rank
        (build_langchain_docs [⟨i, t, ty, ci, tags, [text]⟩]) q k).length
        ≤ (rank (build_langchain_docs [⟨i, t, ty, ci, tags, [text]⟩])).length := by
      simp [chromaSimilaritySearch]
    rw [hlen, hb] at hle
    exact hle

/-- Claim C4 witness: a concrete 1500-character page (1500 copies of `a`)
yields 2 chunk documents and a query with `k = 5` returns at most 2
results. -/
theorem c4_single_1500_char_document_witness :
    (String.mk (List.replicate 1500 'a')).length = 1500
    ∧ (build_langchain_docs
        [⟨"id1", "t1", "ty", "c", [],
          [String.mk (List.replicate 1500 'a')]⟩]).length = 2
    ∧ (chromaSimilaritySearch id
        (build_langchain_docs
          [⟨"id1", "t1", "ty", "c", [],
            [String.mk (List.replicate 1500 'a')]⟩]) "query" 5).length ≤ 2 := by
  have h : (String.mk (List.replicate 1500 'a')).length = 1500 := by
    rw [show (String.mk (List.replicate 1500 'a')).length
        = (List.replicate 1500 'a').length from rfl, List.length_replicate]
  have hall := c4_single_1500_char_document (String.mk (List.replicate 1500 'a'))
    h "id1" "t1" "ty" "c" []
  exact ⟨h, hall.2.1, hall.2.2.2 id "query" 5 rfl⟩

/-- Claim C8: the metadata stored at upsert time carries the chunk text
under the `text` key (first two conjuncts: the built chunk documents
duplicate their page content there, and a successful Pinecone construction
stores exactly those metadata records); every similarity query returns at
most `k` documents, and each returned document has the `text` key stripped
from its metadata and its page content equal to the stored `text` value
(empty string when the key is absent). -/
theorem c8_query_strips_text_metadata :
    (∀ (docs : List SrcDoc), ∀ d ∈ build_langchain_docs docs,
        d.metadata.text = some d.page_content)
    ∧ (∀ (lcDocs : List LCDoc) (env : Env) (idx : Option String)
        (ps : PineconeStore), pineconeInit lcDocs env idx = .ok ps →
        ps.records = lcDocs.map fun d => d.metadata)
    ∧ ∀ (ps : PineconeStore) (rank : List PMeta → List PMeta) (q : String)
        (k : Nat), (rank ps.records).Perm ps.records →
        (similarity_search ps rank q k).length ≤ k
        ∧ ∀ d ∈ similarity_search ps rank q k,
            d.metadata.text = none
            ∧ ∃ m ∈ ps.records, d.page_content = m.text.getD ""
                ∧ d.metadata = { m with text := none } := by
  refine ⟨?_, ?_, ?_⟩
  · intro docs d hd
    simp only [build_langchain_docs, List.mem_flatMap, List.mem_map] at hd
    obtain ⟨a, _, pi, _, pj, _, rfl⟩ := hd
    rfl
  · intro lcDocs env idx ps h
    simp only [pineconeInit] at h
    split_ifs at h
    injection h with h4
    rw [← h4]
  · intro ps rank q k hperm
    constructor
    · simp only [similarity_search, List.length_map, List.length_take]
      exact min_le_left _ _
    · intro d hd
      simp only [similarity_search, List.mem_map] at hd
      obtain ⟨m, hm, rfl⟩ := hd
      have hmem : m ∈ ps.records :=
        hperm.mem_iff.1 (List.mem_of_mem_take hm)
      exact ⟨rfl, m, hmem, rfl, rfl⟩

/-- Claim C8 witness: a store with one record whose `text` value is
`"hello"`, queried with `k = 5` under the identity ranking. -/
theorem c8_query_strips_text_metadata_witness :
    (similarity_search ⟨"idx", [⟨"s", "d", "ty", "c", "", 0, 0, some "hello"⟩]⟩
        id "q" 5).length ≤ 5
    ∧ ∀ d ∈ similarity_search
        ⟨"idx", [⟨"s", "d", "ty", "c", "", 0, 0, some "hello"⟩]⟩ id "q" 5,
        d.metadata.text = none := by
  have h := c8_query_strips_text_metadata.2.2
    ⟨"idx", [⟨"s", "d", "ty", "c", "", 0, 0, some "hello"⟩]⟩ id "q" 5
    (List.Perm.refl _)
  exact ⟨h.1, fun d hd => (h.2 d hd).1⟩

/-- Claim C6 counterexample: a document with the duplicate tag list
`["x", "x"]` is the only document holding `"x"` (the list is a singleton),
yet removing `"x"` from it removes only one list occurrence
(`list.remove`), the usage re-check still finds the leftover copy, and the
tag stays in the global set. -/
theorem c6_duplicate_tag_counterexample :
    ("x" ∈ (⟨"d1", "T", "ty", "c", ["x", "x"], []⟩ : SrcDoc).tags)
    ∧ remove_tag_from_document "d1" "x"
        [⟨"d1", "T", "ty", "c", ["x", "x"], []⟩] {"x"}
      = (true, [⟨"d1", "T", "ty", "c", ["x"], []⟩], {"x"})
    ∧ "x" ∈ (remove_tag_from_document "d1" "x"
        [⟨"d1", "T", "ty", "c", ["x", "x"], []⟩] {"x"}).2.2 := by
  refine ⟨by decide, by decide, by decide⟩

/-- Claim C6 (amended): removing a tag from the first document that matches
the id and holds the tag removes the tag from the global tag set when the
document holds the tag in exactly one list occurrence and no other document
holds it; the tag remains in the global set when at least one other
document still holds it, and also when the acted document held duplicate
occurrences of the tag — only one list occurrence is removed, so the
leftover copy keeps the tag alive. -/
theorem c6_last_holder_updates_global_tags :
    ∀ (pre post : List SrcDoc) (d : SrcDoc) (g : Finset String) (tag : String),
      tag ∈ d.tags →
      (∀ e ∈ pre, ¬ (e.id = d.id ∧ tag ∈ e.tags)) →
      ((d.tags.count tag = 1 →
        (∀ e ∈ pre, tag ∉ e.tags) → (∀ e ∈ post, tag ∉ e.tags) →
        tag ∉ (remove_tag_from_document d.id tag (pre ++ d :: post) g).2.2)
      ∧ (tag ∈ g → (∃ e ∈ pre ++ post, tag ∈ e.tags) →
        tag ∈ (remove_tag_from_document d.id tag (pre ++ d :: post) g).2.2)
      ∧ (tag ∈ g → 2 ≤ d.tags.count tag →
        tag ∈ (remove_tag_from_document d.id tag (pre ++ d :: post) g).2.2)) := by
  intro pre post d g tag htag hpre
  have hred : remove_tag_from_document d.id tag (pre ++ d :: post) g
      = (true, pre ++ { d with tags := d.tags.erase tag } :: post,
          if (pre ++ { d with tags := d.tags.erase tag } :: post).any
              (fun x => decide (tag ∈ x.tags)) = true
          then g else g.erase tag) := by
    rw [remove_tag_from_document,
      removeTagAux_skip_prefix d.id tag pre (d :: post) [] g hpre]
    rw [removeTagAux, if_pos ⟨rfl, htag⟩]
    simp
  refine ⟨?_, ?_, ?_⟩
  · intro hcount hA1 hA2
    have herase : tag ∉ d.tags.erase tag := by
      apply List.count_eq_zero.1
      rw [List.count_erase_self, hcount]
    have hstill : (pre ++ { d with tags := d.tags.erase tag } :: post).any
        (fun x => decide (tag ∈ x.tags)) = false := by
      rw [List.any_eq_false]
      intro x hx
      simp only [decide_eq_true_eq]
      rcases List.mem_append.1 hx with hx | hx
      · exact hA1 x hx
      · rcases List.mem_cons.1 hx with rfl | hx
        · exact herase
        · exact hA2 x hx
    rw [hred]
    simp only [hstill]
    simp
  · intro hg ⟨e, he, hetag⟩
    have hmem : e ∈ pre ++ { d with tags := d.tags.erase tag } :: post := by
      rcases List.mem_append.1 he with he | he
      · exact List.mem_append.2 (Or.inl he)
      · exact List.mem_append.2 (Or.inr (List.mem_cons_of_mem _ he))
    have hstill : (pre ++ { d with tags := d.tags.erase tag } :: post).any
        (fun x => decide (tag ∈ x.tags)) = true := by
      rw [List.any_eq_true]
      exact ⟨e, hmem, by simpa using hetag⟩
    rw [hred]
    simp only [hstill]
    simpa using hg
  · intro hg hcount
    have herase : tag ∈ d.tags.erase tag := by
      apply List.count_pos_iff.1
      rw [List.count_erase_self]
      omega
    have hstill : (pre ++ { d with tags := d.tags.erase tag } :: post).any
        (fun x => decide (tag ∈ x.tags)) = true := by
      rw [List.any_eq_true]
      exact ⟨{ d with tags := d.tags.erase tag },
        List.mem_append.2 (Or.inr (List.mem_cons_self _ _)),
        by simpa using herase⟩
    rw [hred]
    simp only [hstill]
    simpa using hg

/-- Claim C6 witness: removing `"x"` from its only single-occurrence holder
drops it from the global set; removing it from one of two holders keeps it
there; removing it from a duplicate-occurrence last holder also keeps it
there. -/
theorem c6_last_holder_updates_global_tags_witness :
    "x" ∉ (remove_tag_from_document "d1" "x"
        [⟨"d1", "T", "ty", "c", ["x"], []⟩] {"x"}).2.2
    ∧ "x" ∈ (remove_tag_from_document "d1" "x"
        [⟨"d1", "T", "ty", "c", ["x"], []⟩,
         ⟨"d2", "U", "ty", "c", ["x"], []⟩] {"x"}).2.2
    ∧ "x" ∈ (remove_tag_from_document "d1" "x"
        [⟨"d1", "T", "ty", "c", ["x", "x"], []⟩] {"x"}).2.2 := by
  refine ⟨?_, ?_, ?_⟩
  · have h := (c6_last_holder_updates_global_tags [] []
      ⟨"d1", "T", "ty", "c", ["x"], []⟩ {"x"} "x"
      (by decide) (by simp)).1 (by decide) (by simp) (by simp)
    simpa using h
  · have h := (c6_last_holder_updates_global_tags []
      [⟨"d2", "U", "ty", "c", ["x"], []⟩]
      ⟨"d1", "T", "ty", "c", ["x"], []⟩ {"x"} "x"
      (by decide) (by simp)).2.1 (by simp)
      ⟨⟨"d2", "U", "ty", "c", ["x"], []⟩, by simp, by decide⟩
    simpa using h
  · have h := (c6_last_holder_updates_global_tags [] []
      ⟨"d1", "T", "ty", "c", ["x", "x"], []⟩ {"x"} "x"
      (by decide) (by simp)).2.2 (by simp) (by decide)
    simpa using h

/-- Claim C10: when no document has the given id, both tag operations return
`False` and leave the document list and the global tag set unchanged; the
removal likewise returns `False` without modifying any state when no
document both matches the id and carries the tag (in particular when the
identified document does not carry it). -/
theorem c10_missing_target_no_change :
    ∀ (docs : List SrcDoc) (g : Finset String) (did tag : String)
      (newTags : List String),
      ((∀ e ∈ docs, e.id ≠ did) →
        add_tags_to_document did newTags docs g = (false, docs, g)
        ∧ remove_tag_from_document did tag docs g = (false, docs, g))
      ∧ ((∀ e ∈ docs, ¬ (e.id = did ∧ tag ∈ e.tags)) →
        remove_tag_from_document did tag docs g = (false, docs, g)) := by
  intro docs g did tag newTags
  constructor
  · intro h
    refine ⟨add_tags_no_match did newTags docs g h, ?_⟩
    rw [remove_tag_from_document, removeTagAux_no_match did tag docs [] g
      fun e he hcontr => h e he hcontr.1]
    simp
  · intro h
    rw [remove_tag_from_document, removeTagAux_no_match did tag docs [] g h]
    simp

/-- Claim C10 witness: adding to / removing from an absent document id
`"b"`, and removing an uncarried tag `"y"`, each leave the one-document
state unchanged. -/
theorem c10_missing_target_no_change_witness :
    add_tags_to_document "b" ["t"] [⟨"a", "T", "ty", "c", ["x"], []⟩] ∅
        = (false, [⟨"a", "T", "ty", "c", ["x"], []⟩], ∅)
    ∧ remove_tag_from_document "b" "x" [⟨"a", "T", "ty", "c", ["x"], []⟩] ∅
        = (false, [⟨"a", "T", "ty", "c", ["x"], []⟩], ∅)
    ∧ remove_tag_from_document "a" "y" [⟨"a", "T", "ty", "c", ["x"], []⟩] ∅
        = (false, [⟨"a", "T", "ty", "c", ["x"], []⟩], ∅) := by
  refine ⟨?_, ?_, ?_⟩
  · exact ((c10_missing_target_no_change [⟨"a", "T", "ty", "c", ["x"], []⟩]
      ∅ "b" "x" ["t"]).1 (by decide)).1
  · exact ((c10_missing_target_no_change [⟨"a", "T", "ty", "c", ["x"], []⟩]
      ∅ "b" "x" ["t"]).1 (by decide)).2
  · exact (c10_missing_target_no_change [⟨"a", "T", "ty", "c", ["x"], []⟩]
      ∅ "a" "y" ["t"]).2 (by decide)

end DocAssist
